import Mathlib

/-!
# Verification of the `dabug` execution-tracing package

Shallow embedding of the `dabug` Go package (a lightweight debug logger
with a buffered line list, a key/value context stack, and aligned block
flushing).  The repository carries three evolutionary variants of the same
core: `dabug.go` (package-level `logger`) and two `Dabugger`-based
iterations (`part_000`, the earlier one, and `part_001`, the final one).
Where the variants differ, both are embedded with distinct names.

Modelling conventions:
* Go slices become `List`s; Go struct mutation becomes functional record
  update; every operation that writes to the configured `io.Writer`
  returns, next to the updated state, the list of strings passed to the
  write calls it performed (`fmt.Fprint` / `fmt.Fprintf` = one element).
* A Go slice expression with an out-of-range bound (a runtime panic) is
  modelled as `Option.none`.
* Go's `fmt` width specifier `%-Ws` (left-justify, pad with spaces) is
  `leftJustify`.  Go field/function names containing `prefix` are
  rendered with `Pfx` (`linePrefix` ↦ `linePfx`, `genPrefix` ↦ `genPfx`,
  `line.prefix` ↦ `Line.pfx`).
* Call-stack introspection (`runtime.Callers`, `debug.Stack`) is not
  computable in the embedding; the resolved call site / the raw stack
  text are taken as parameters.
-/

namespace Dabug

/-- Go `type source struct { File, Function string; Line int }`. -/
structure Source where
  file : String
  function : String
  line : Int
deriving DecidableEq

/-- Go `func (s source) String() string { return fmt.Sprintf("%s:%d", s.File, s.Line) }`. -/
def sourceString (s : Source) : String :=
  s.file ++ ":" ++ toString s.line

/-- Go `type dcontext struct { key, value string }` (named `context` in the
earlier variants). -/
structure Dcontext where
  key : String
  value : String
deriving DecidableEq

/-- Go `type line struct { msg string; src *source; prefix string }`.
The Go field `prefix` is rendered `pfx`. -/
structure Line where
  msg : String
  src : Source
  pfx : String
deriving DecidableEq

/-- Go `sectionBeg = "-----"`. -/
def sectionBeg : String := "-----"

/-- Go `sectionEnd = "====="`. -/
def sectionEnd : String := "====="

/-- Go `type Dabugger struct` from `part_001` (the `linesMutex` only guards
the operations, it carries no data; the `writer` is modelled by returning
the written strings). The Go field `linePrefix` is rendered `linePfx`. -/
structure Dabugger where
  lines : List Line
  contexts : List Dcontext
  linePfx : String
  autoFlush : Bool
  stackSkips : Int
deriving DecidableEq

/-- Go slice expression `cs[:n]` on a context slice: in bounds when
`0 ≤ n ≤ len(cs)`, otherwise a runtime panic, modelled as `none`. -/
def goSliceTo (cs : List Dcontext) (n : Int) : Option (List Dcontext) :=
  if 0 ≤ n ∧ n ≤ (cs.length : Int) then some (cs.take n.toNat) else none

/-- `Dabugger.RemoveTopContext` (part_001 / part_000) and
`logger.removeTopContext` (dabug.go), all with the identical body
`d.contexts = d.contexts[:len(d.contexts)-1]`. -/
def RemoveTopContext (cs : List Dcontext) : Option (List Dcontext) :=
  goSliceTo cs ((cs.length : Int) - 1)

/-- `Dabugger.AddContext`: `d.contexts = append(d.contexts, &dcontext{key, value})`. -/
def AddContext (cs : List Dcontext) (key value : String) : List Dcontext :=
  cs ++ [⟨key, value⟩]

/-- `Dabugger.RemoveContext` (part_001, identical in part_000): rebuilds the
slice keeping every entry whose key differs from `key`. -/
def RemoveContext (cs : List Dcontext) (key : String) : List Dcontext :=
  cs.foldl (fun newContexts c => if c.key ≠ key then newContexts ++ [c] else newContexts) []

/-- `logger.RemoveContext` in `dabug.go` (lines 110–112): the body is empty,
so the context slice is returned unchanged. -/
def loggerRemoveContext (cs : List Dcontext) (key : String) : List Dcontext :=
  cs

/-- The `"key:value"` rendering `fmt.Sprintf("%s:%s", context.key, context.value)`
inside `genPrefix`. -/
def ctxKV (c : Dcontext) : String :=
  c.key ++ ":" ++ c.value

/-- The `strings.Builder` loop body of `genPrefix`:
`for i := 0; i < len(contexts); i++ { if i > 0 { ", " }; kv }`,
rendered as a fold over the index/value pairs. -/
def contextsBody (cs : List Dcontext) : String :=
  cs.enum.foldl (fun acc ic => acc ++ (if ic.1 > 0 then ", " else "") ++ ctxKV ic.2) ""

/-- The full context decoration built by `genPrefix`: `" ("` and `")"` are
written only when the context slice is non-empty. -/
def contextsStr (cs : List Dcontext) : String :=
  (if cs.length > 0 then " (" else "") ++ contextsBody cs
    ++ (if cs.length > 0 then ")" else "")

/-- `Dabugger.genPrefix` (part_001), rendered `genPfx`: computes
`fmt.Sprintf("%s%s%s ", d.linePrefix, line.src, c.String())` for the line
being appended. -/
def genPfx (d : Dabugger) (src : Source) : String :=
  d.linePfx ++ sourceString src ++ contextsStr d.contexts ++ " "

/-- Go's `fmt` width `%-Ws`: left-justify `s`, padding with spaces up to
width `w` (no truncation when `s` is longer). -/
def leftJustify (w : Nat) (s : String) : String :=
  s ++ String.mk (List.replicate (w - s.length) ' ')

/-- `lineStr(lFmt, l)`: the padded prefix alone when the message is empty,
otherwise the padded prefix followed by `"- "` and the message.  The Go
format string `lFmt` is `"%-Ws"` in `Flush` (here `w = W`) and the plain
`"%s"` in `flushLine` (here `w = 0`, which pads nothing). -/
def lineStr (w : Nat) (l : Line) : String :=
  if l.msg.length = 0 then leftJustify w l.pfx
  else leftJustify w l.pfx ++ "- " ++ l.msg

/-- The `maxPrefixLen` computation in `Flush`: an int starting at `-1`,
maxed with each pending line's prefix length. -/
def maxPfxLen (ls : List Line) : Int :=
  ls.foldl (fun m l => max m (l.pfx.length : Int)) (-1)

/-- The successive `sb.WriteString` arguments of `Flush`: the begin
delimiter, one rendered line per pending line, the end delimiter, each with
its trailing `"\n"`. -/
def flushSegs (d : Dabugger) : List String :=
  let w := (maxPfxLen d.lines).toNat
  [d.linePfx ++ sectionBeg ++ "\n"]
    ++ d.lines.map (fun l => lineStr w l ++ "\n")
    ++ [d.linePfx ++ sectionEnd ++ "\n"]

/-- `Dabugger.Flush` (part_001; dabug.go's package `Flush` is the same on
the default logger): under the mutex, a guarded no-op when no lines are
pending, otherwise one `fmt.Fprint` of the whole built block followed by
`clearLines`. -/
def Flush (d : Dabugger) : Dabugger × List String :=
  if d.lines.length = 0 then (d, [])
  else ({ d with lines := [] }, [String.join (flushSegs d)])

/-- `Dabugger.flushLine`: `fmt.Fprintf(d.writer, "%s\n", lineStr("%s", l))`,
one write of the unpadded rendered line plus newline. -/
def flushLine (l : Line) : String :=
  lineStr 0 l ++ "\n"

/-- `Dabugger.appendLine`: stamps the prefix via `genPrefix`, then either
writes the line immediately (auto-flush) or appends it to the pending
list under the mutex. -/
def appendLine (d : Dabugger) (l0 : Line) : Dabugger × List String :=
  let l : Line := { l0 with pfx := genPfx d l0.src }
  if d.autoFlush then (d, [flushLine l])
  else ({ d with lines := d.lines ++ [l] }, [])

/-- `Dabugger.appendMsg`: builds a line with the given message and the
resolved source (taken as a parameter here) and appends it. -/
def appendMsg (d : Dabugger) (src : Source) (msg : String) : Dabugger × List String :=
  appendLine d { msg := msg, src := src, pfx := "" }

/-- `Dabugger.appendEmpty` (the `Here()` marker): a line with empty message. -/
def appendEmpty (d : Dabugger) (src : Source) : Dabugger × List String :=
  appendLine d { msg := "", src := src, pfx := "" }

/-- `Dabugger.AutoFlush` (part_001, identical in part_000): sets the flag,
then — reading the pending-line count of the package-level default
instance `defDabugger`, passed here as `defLines` — flushes the receiver
when that count is positive. -/
def AutoFlush (d : Dabugger) (defLines : List Line) (flush : Bool) : Dabugger × List String :=
  let d1 : Dabugger := { d with autoFlush := flush }
  if defLines.length > 0 then Flush d1 else (d1, [])

/-- `Dabugger.LinePrefix` (setter), rendered `setLinePfx`: plain field
assignment. -/
def setLinePfx (d : Dabugger) (p : String) : Dabugger :=
  { d with linePfx := p }

/-- The loop of `Dabugger.Stack`: `for i, line := range stackLines`
appends the line, then breaks when `num > 0 && i+1 >= num`. Returns the
messages passed to `appendMsg`, in order; `i` is the running index. -/
def stackLoop (num : Int) : Nat → List String → List String
  | _, [] => []
  | i, l :: rest =>
    if num > 0 ∧ (i : Int) + 1 ≥ num then [l]
    else l :: stackLoop num (i + 1) rest

/-- `Dabugger.Stack`: splits `debug.Stack()` on newlines (the split result
is the parameter `stackLines`) and feeds each selected line through
`appendMsg`, accumulating state and written output. -/
def Stack (d : Dabugger) (src : Source) (stackLines : List String) (num : Int) :
    Dabugger × List String :=
  (stackLoop num 0 stackLines).foldl
    (fun acc msg =>
      let r := appendMsg acc.1 src msg
      (r.1, acc.2 ++ r.2))
    (d, [])

/-- The zero value `&Dabugger{}` that `defDabugger` holds before `init`
runs. -/
def zeroDabugger : Dabugger :=
  { lines := [], contexts := [], linePfx := "", autoFlush := false, stackSkips := 0 }

/-- `New` from part_001: inherits the default instance's line prefix when
that instance exists and its prefix is non-empty; auto-flush starts
disabled, `stackSkips` is 4. -/
def New (defD : Option Dabugger) : Dabugger :=
  let p : String :=
    match defD with
    | some dd => if dd.linePfx ≠ "" then dd.linePfx else ""
    | none => ""
  { lines := [], contexts := [], linePfx := p, autoFlush := false, stackSkips := 4 }

/-- `init` from part_001: `defDabugger = New()` (run while `defDabugger`
is still the zero value), then auto-flush on, prefix `"DABUG: "`, one
extra stack skip. -/
def initDefault : Dabugger :=
  let d := New (some zeroDabugger)
  { d with autoFlush := true, linePfx := "DABUG: ", stackSkips := d.stackSkips + 1 }

/-- `New` from part_000 (the earlier iteration): default prefix
`"DABUG: "` is replaced by the default instance's prefix whenever that
instance is non-nil, and auto-flush starts ENABLED. -/
def NewEarly (defD : Option Dabugger) : Dabugger :=
  let p : String :=
    match defD with
    | some dd => dd.linePfx
    | none => "DABUG: "
  { lines := [], contexts := [], linePfx := p, autoFlush := true, stackSkips := 4 }

/-- `init` from part_000: `defDabugger = New(); defDabugger.stackSkips++`
(run while `defDabugger` is the zero value, whose prefix is empty). -/
def initDefaultEarly : Dabugger :=
  let d := NewEarly (some zeroDabugger)
  { d with stackSkips := d.stackSkips + 1 }

/-! ## Concrete fixtures

Small concrete instances used by counterexamples and witnesses. -/

/-- An explicitly constructed instance with buffering on and a short
prefix (as the tests do after `AutoFlush(false)`; `LinePrefix("P: ")`). -/
def baseInstance : Dabugger :=
  { lines := [], contexts := [], linePfx := "P: ", autoFlush := false, stackSkips := 4 }

/-- `baseInstance` after buffering one message and one `Here()` marker. -/
def sampleInstance : Dabugger :=
  (appendEmpty (appendMsg baseInstance ⟨"a.go", "f", 1⟩ "hello").1 ⟨"b.go", "g", 22⟩).1

/-- An explicit (non-default) instance holding one pending line while the
default instance holds none. -/
def strayInstance : Dabugger :=
  (appendMsg baseInstance ⟨"c.go", "h", 9⟩ "pending").1

/-! ## Spec-side definitions

These follow the wording of the specification (Sections 4.2, 4.3, 6) and
are compared with the definitions embedded from the source. -/

/-- Spec: context values are `"key:value"` pairs "joined by `, `". -/
def specJoinComma : List String → String
  | [] => ""
  | [x] => x
  | x :: y :: rest => x ++ ", " ++ specJoinComma (y :: rest)

/-- Spec: "the maximum rendered-prefix length across all pending lines". -/
def specMaxWidth (ls : List Line) : Nat :=
  ls.foldl (fun m l => max m l.pfx.length) 0

/-- Spec (Section 6), the `N + 2` newline-terminated segments of a flushed
block: begin delimiter, each pending line padded to the maximum prefix
width, end delimiter. -/
def specFlushSegs (p : String) (ls : List Line) : List String :=
  [p ++ "-----" ++ "\n"]
    ++ ls.map (fun l => lineStr (specMaxWidth ls) l ++ "\n")
    ++ [p ++ "=====" ++ "\n"]

/-! ## Helper lemmas -/

lemma length_eq_zero_iff (s : String) : s.length = 0 ↔ s = "" := by
  cases s with
  | mk d => simp [String.length, String.ext_iff]

lemma foldl_max_toNat (ls : List Line) : ∀ a : Int,
    (ls.foldl (fun m l => max m (l.pfx.length : Int)) a).toNat
      = ls.foldl (fun m l => max m l.pfx.length) a.toNat := by
  induction ls with
  | nil => intro a; rfl
  | cons l ls ih =>
    intro a
    rw [List.foldl_cons, List.foldl_cons, ih]
    congr 1
    omega

lemma maxPfxLen_toNat (ls : List Line) : (maxPfxLen ls).toNat = specMaxWidth ls := by
  unfold maxPfxLen specMaxWidth
  rw [foldl_max_toNat]
  rfl

lemma flushSegs_eq_spec (d : Dabugger) :
    flushSegs d = specFlushSegs d.linePfx d.lines := by
  unfold flushSegs specFlushSegs
  rw [maxPfxLen_toNat]
  rfl

lemma flush_of_ne (d : Dabugger) (h : d.lines ≠ []) :
    Flush d = ({ d with lines := [] }, [String.join (specFlushSegs d.linePfx d.lines)]) := by
  unfold Flush
  rw [if_neg (by simpa using h), flushSegs_eq_spec]

lemma flush_of_empty (d : Dabugger) (h : d.lines = []) : Flush d = (d, []) := by
  unfold Flush
  rw [if_pos (by simp [h])]

lemma strFoldl_shift (xs : List String) : ∀ a : String,
    xs.foldl (fun r s => r ++ s) a = a ++ xs.foldl (fun r s => r ++ s) "" := by
  induction xs with
  | nil => intro a; simp
  | cons x xs ih =>
    intro a
    rw [List.foldl_cons, List.foldl_cons, ih ("" ++ x), ih (a ++ x)]
    simp [String.append_assoc]

lemma join_cons (x : String) (xs : List String) :
    String.join (x :: xs) = x ++ String.join xs := by
  show (x :: xs).foldl (fun r s => r ++ s) "" = x ++ xs.foldl (fun r s => r ++ s) ""
  rw [List.foldl_cons, strFoldl_shift]
  simp

lemma contextsBody_from (cs : List Dcontext) : ∀ (n : Nat), 0 < n → ∀ acc : String,
    (List.enumFrom n cs).foldl
        (fun acc ic => acc ++ (if ic.1 > 0 then ", " else "") ++ ctxKV ic.2) acc
      = acc ++ String.join (cs.map (fun c => ", " ++ ctxKV c)) := by
  induction cs with
  | nil => intro n _ acc; simp [List.enumFrom, String.join]
  | cons c cs ih =>
    intro n hn acc
    simp only [List.enumFrom, List.foldl_cons, List.map_cons]
    rw [ih (n + 1) (Nat.succ_pos n)]
    rw [if_pos hn, join_cons]
    simp [String.append_assoc]

lemma specJoinComma_cons (x : String) (xs : List String) :
    specJoinComma (x :: xs) = x ++ String.join (xs.map (fun y => ", " ++ y)) := by
  induction xs generalizing x with
  | nil => simp [specJoinComma, String.join]
  | cons y rest ih =>
    simp only [specJoinComma]
    rw [ih y, List.map_cons, join_cons]
    simp [String.append_assoc]

lemma contextsBody_eq (cs : List Dcontext) :
    contextsBody cs = specJoinComma (cs.map ctxKV) := by
  cases cs with
  | nil => rfl
  | cons c cs =>
    unfold contextsBody
    show (List.enumFrom 0 (c :: cs)).foldl _ "" = _
    simp only [List.enumFrom, List.foldl_cons]
    rw [contextsBody_from cs 1 Nat.one_pos]
    rw [List.map_cons, specJoinComma_cons]
    have hm : ((cs.map ctxKV).map (fun y => ", " ++ y)) = cs.map (fun c => ", " ++ ctxKV c) := by
      rw [List.map_map]
      rfl
    rw [hm]
    simp

lemma contextsStr_eq (cs : List Dcontext) :
    contextsStr cs =
      if cs = [] then "" else " (" ++ specJoinComma (cs.map ctxKV) ++ ")" := by
  unfold contextsStr
  cases cs with
  | nil => simp [contextsBody_eq, specJoinComma]
  | cons c cs =>
    rw [contextsBody_eq]
    simp [String.append_assoc]

lemma removeContext_loop (key : String) (cs : List Dcontext) : ∀ acc : List Dcontext,
    cs.foldl (fun newContexts c => if c.key ≠ key then newContexts ++ [c] else newContexts) acc
      = acc ++ cs.filter (fun c => c.key ≠ key) := by
  induction cs with
  | nil => intro acc; simp
  | cons c cs ih =>
    intro acc
    rw [List.foldl_cons, ih]
    by_cases h : c.key = key
    · simp [h, List.filter_cons]
    · simp [h, List.filter_cons]

lemma removeContext_eq_filter (cs : List Dcontext) (key : String) :
    RemoveContext cs key = cs.filter (fun c => c.key ≠ key) := by
  unfold RemoveContext
  rw [removeContext_loop]
  simp

lemma appendMsg_buffered (d : Dabugger) (src : Source) (msg : String)
    (h : d.autoFlush = false) :
    appendMsg d src msg
      = ({ d with lines := d.lines ++ [{ msg := msg, src := src, pfx := genPfx d src }] }, []) := by
  unfold appendMsg appendLine
  rw [h]
  rfl

lemma genPfx_lines_irrelevant (d : Dabugger) (ls : List Line) (src : Source) :
    genPfx { d with lines := ls } src = genPfx d src := rfl

lemma emit_fold (src : Source) (msgs : List String) : ∀ (d : Dabugger) (out : List String),
    d.autoFlush = false →
    msgs.foldl
        (fun acc msg =>
          let r := appendMsg acc.1 src msg
          (r.1, acc.2 ++ r.2))
        (d, out)
      = ({ d with lines :=
            d.lines ++ msgs.map (fun m => { msg := m, src := src, pfx := genPfx d src }) },
          out) := by
  induction msgs with
  | nil => intro d out _; simp
  | cons m ms ih =>
    intro d out h
    rw [List.foldl_cons]
    show ms.foldl _ ((appendMsg d src m).1, out ++ (appendMsg d src m).2) = _
    rw [appendMsg_buffered d src m h]
    rw [ih { d with lines := d.lines ++ [{ msg := m, src := src, pfx := genPfx d src }] } (out ++ []) (by simpa using h)]
    simp [genPfx_lines_irrelevant]

lemma map_msg_mk (src : Source) (p : String) (msgs : List String) :
    (msgs.map (fun m => ({ msg := m, src := src, pfx := p } : Line))).map Line.msg = msgs := by
  induction msgs with
  | nil => rfl
  | cons m ms ih => simp [ih]

lemma stackLoop_nonpos (num : Int) (h : num ≤ 0) (sl : List String) : ∀ i : Nat,
    stackLoop num i sl = sl := by
  induction sl with
  | nil => intro i; rfl
  | cons l rest ih =>
    intro i
    unfold stackLoop
    rw [if_neg (by omega)]
    rw [ih]

lemma stackLoop_pos (num : Int) (h : 0 < num) (sl : List String) : ∀ i : Nat,
    (i : Int) < num → stackLoop num i sl = sl.take (num - i).toNat := by
  induction sl with
  | nil => intro i _; simp [stackLoop]
  | cons l rest ih =>
    intro i hi
    unfold stackLoop
    by_cases hb : (i : Int) + 1 ≥ num
    · rw [if_pos ⟨h, hb⟩]
      have : (num - i).toNat = 1 := by omega
      rw [this]
      simp
    · rw [if_neg (by tauto)]
      rw [ih (i + 1) (by omega)]
      have h1 : (num - i).toNat = ((num - (i + 1)).toNat) + 1 := by omega
      rw [h1]
      simp

/-! ## Claims -/

/-- C1: on an empty context stack, the remove-most-recent-context
operation evaluates the Go slice expression `contexts[:len(contexts)-1]`
with bound `-1`, which is out of range — a runtime panic (modelled
`none`), not the guarded no-op the claim requires; on a singleton stack
the same slice is in range and drops the entry. -/
theorem removeTopContext_empty_out_of_bounds :
    RemoveTopContext [] = none ∧ RemoveTopContext [⟨"k", "v"⟩] = some [] :=
  ⟨rfl, rfl⟩

/-- C2: `AutoFlush` tests `len(defDabugger.lines)` — the default
instance's buffer — not the receiver's.  Enabling auto-flush on an
explicit instance holding one pending line while the default instance
holds none performs no flush: the pending line stays buffered and no
output is written, although the flag is now true, so the claimed
invariant (`lines` non-empty only when `autoFlush` is false) is broken
and the line is not emitted. -/
theorem autoFlush_enable_skips_own_pending :
    (AutoFlush strayInstance [] true).1.lines = strayInstance.lines
    ∧ strayInstance.lines ≠ []
    ∧ (AutoFlush strayInstance [] true).2 = []
    ∧ (AutoFlush strayInstance [] true).1.autoFlush = true := by
  refine ⟨rfl, by decide, rfl, rfl⟩

/-- C6: `Dabugger.RemoveContext` (part_001) removes every entry whose key
matches, keeping the remaining entries in order (it is exactly a filter);
but `logger.RemoveContext` in dabug.go has an empty body and removes
nothing: on the stack `[(hello, world)]`, removing `"hello"` leaves the
entry in place in that variant while the part_001 variant deletes it. -/
theorem removeContext_all_matches_vs_stub :
    (∀ (cs : List Dcontext) (key : String),
        RemoveContext cs key = cs.filter (fun c => c.key ≠ key))
    ∧ loggerRemoveContext [⟨"hello", "world"⟩] "hello" = [⟨"hello", "world"⟩]
    ∧ RemoveContext [⟨"hello", "world"⟩] "hello" = [] := by
  refine ⟨removeContext_eq_filter, rfl, by decide⟩

/-- C9 counterexample: in the part_000 variant, `New` constructs instances
with auto-flush ENABLED, and the default instance its `init` builds ends
up with an empty line prefix (the zero-value default's prefix is
inherited unconditionally), contradicting the claim as stated. -/
theorem newEarly_enables_autoflush :
    (NewEarly (some zeroDabugger)).autoFlush = true ∧ initDefaultEarly.linePfx = "" :=
  ⟨rfl, rfl⟩

/-- C9 (amended, part_001 variant): `New` constructs with auto-flush
disabled, an empty buffer, and the default instance's line prefix copied
at construction time (when non-empty), while the default instance built
by `init` has auto-flush enabled and the non-empty prefix `"DABUG: "`. -/
theorem new_and_default_instance_config (dd : Dabugger) (h : dd.linePfx ≠ "") :
    (New (some dd)).autoFlush = false
    ∧ (New (some dd)).linePfx = dd.linePfx
    ∧ (New (some dd)).lines = []
    ∧ (New (some dd)).contexts = []
    ∧ initDefault.autoFlush = true
    ∧ initDefault.linePfx = "DABUG: " := by
  refine ⟨rfl, ?_, rfl, rfl, rfl, rfl⟩
  simp [New, h]

/-- C9 witness: the amended configuration facts evaluated with the
default instance itself as the inherited-from instance. -/
theorem new_and_default_instance_config_witness :
    initDefault.linePfx ≠ ""
    ∧ ((New (some initDefault)).autoFlush = false
       ∧ (New (some initDefault)).linePfx = initDefault.linePfx
       ∧ (New (some initDefault)).lines = []
       ∧ (New (some initDefault)).contexts = []
       ∧ initDefault.autoFlush = true
       ∧ initDefault.linePfx = "DABUG: ") :=
  ⟨by decide, new_and_default_instance_config initDefault (by decide)⟩

/-- C10: on the default instance (receiver and checked `defDabugger`
buffer coincide, so `defLines` is the instance's own pending list),
`AutoFlush(false)` with pending lines still flushes and clears them: the
flush-on-pending step never consults the new flag value. -/
theorem autoFlush_false_default_still_flushes (d : Dabugger) (h : d.lines ≠ []) :
    (AutoFlush d d.lines false).1.lines = []
    ∧ (AutoFlush d d.lines false).2 = [String.join (specFlushSegs d.linePfx d.lines)]
    ∧ (AutoFlush d d.lines false).1.autoFlush = false := by
  have hp : d.lines.length > 0 := List.length_pos.mpr h
  have hf := flush_of_ne { d with autoFlush := false } h
  unfold AutoFlush
  rw [if_pos hp, hf]
  exact ⟨rfl, rfl, rfl⟩

/-- C10 witness: `AutoFlush(false)` on a default instance with two
pending lines flushes them. -/
theorem autoFlush_false_default_still_flushes_witness :
    sampleInstance.lines ≠ []
    ∧ ((AutoFlush sampleInstance sampleInstance.lines false).1.lines = []
       ∧ (AutoFlush sampleInstance sampleInstance.lines false).2
           = [String.join (specFlushSegs sampleInstance.linePfx sampleInstance.lines)]
       ∧ (AutoFlush sampleInstance sampleInstance.lines false).1.autoFlush = false) :=
  ⟨by decide, autoFlush_false_default_still_flushes sampleInstance (by decide)⟩

/-- C3: flushing a non-empty buffer of N pending lines performs ONE write
whose content is the concatenation of N+2 newline-terminated segments in
order: the begin delimiter `linePrefix ++ "-----"`, each pending line
left-justified to the maximum prefix width and followed by `"- " ++ msg`
exactly when the message is non-empty, and the end delimiter
`linePrefix ++ "====="`; the buffer is empty afterwards. -/
theorem flush_block_format (d : Dabugger) (h : d.lines ≠ []) :
    (Flush d).2 = [String.join (specFlushSegs d.linePfx d.lines)]
    ∧ specFlushSegs d.linePfx d.lines
        = [d.linePfx ++ "-----" ++ "\n"]
          ++ d.lines.map (fun l => lineStr (specMaxWidth d.lines) l ++ "\n")
          ++ [d.linePfx ++ "=====" ++ "\n"]
    ∧ (specFlushSegs d.linePfx d.lines).length = d.lines.length + 2
    ∧ (∀ l : Line, lineStr (specMaxWidth d.lines) l
        = leftJustify (specMaxWidth d.lines) l.pfx
          ++ (if l.msg = "" then "" else "- " ++ l.msg))
    ∧ (Flush d).1.lines = [] := by
  rw [flush_of_ne d h]
  refine ⟨rfl, rfl, ?_, ?_, rfl⟩
  · simp [specFlushSegs]
  · intro l
    unfold lineStr
    by_cases hm : l.msg = ""
    · rw [if_pos ((length_eq_zero_iff l.msg).mpr hm), if_pos hm]
      simp
    · rw [if_neg (fun hz => hm ((length_eq_zero_iff l.msg).mp hz)), if_neg hm]
      simp [String.append_assoc]

/-- C3 witness: flushing two buffered lines (one message, one marker, of
different prefix widths) yields the aligned 4-segment block as a single
write. -/
theorem flush_block_format_witness :
    sampleInstance.lines ≠ []
    ∧ (Flush sampleInstance).1.lines = []
    ∧ (Flush sampleInstance).2
        = ["P: -----\nP: a.go:1  - hello\nP: b.go:22 \nP: =====\n"] :=
  ⟨by decide, (flush_block_format sampleInstance (by decide)).2.2.2.2, by decide⟩

/-- C4: flushing an empty pending buffer is a no-op (no output, not even
delimiters, and the state is unchanged); flushing any buffer leaves the
pending list empty, so an immediately repeated flush writes nothing. -/
theorem flush_empty_noop_and_idempotent (d e : Dabugger) (h : d.lines = []) :
    (Flush d).2 = []
    ∧ (Flush d).1 = d
    ∧ (Flush e).1.lines = []
    ∧ (Flush (Flush e).1).2 = [] := by
  have hd := flush_of_empty d h
  have he : (Flush e).1.lines = [] := by
    by_cases hc : e.lines = []
    · rw [flush_of_empty e hc]; exact hc
    · rw [flush_of_ne e hc]
  refine ⟨by rw [hd], by rw [hd], he, ?_⟩
  rw [flush_of_empty _ he]

/-- C4 witness: flush on an empty instance writes nothing; two
consecutive flushes of a loaded instance write nothing the second time. -/
theorem flush_empty_noop_and_idempotent_witness :
    baseInstance.lines = []
    ∧ ((Flush baseInstance).2 = []
       ∧ (Flush baseInstance).1 = baseInstance
       ∧ (Flush sampleInstance).1.lines = []
       ∧ (Flush (Flush sampleInstance).1).2 = []) :=
  ⟨rfl, flush_empty_noop_and_idempotent baseInstance sampleInstance rfl⟩

/-- C5: appending a message renders its prefix from the line prefix and
contexts current at that instant; changing the line prefix between two
buffered appends leaves the first line's stored prefix untouched, and the
flush that follows renders its two delimiter lines with the
flush-time prefix `p2` while each buffered line keeps its append-time
prefix. -/
theorem pfx_append_time_delims_flush_time
    (d : Dabugger) (h1 : d.autoFlush = false) (h2 : d.lines = [])
    (p2 : String) (s1 s2 : Source) (m1 m2 : String) :
    ((appendMsg (setLinePfx (appendMsg d s1 m1).1 p2) s2 m2).1.lines.map Line.pfx
        = [d.linePfx ++ sourceString s1 ++ contextsStr d.contexts ++ " ",
           p2 ++ sourceString s2 ++ contextsStr d.contexts ++ " "])
    ∧ (Flush (appendMsg (setLinePfx (appendMsg d s1 m1).1 p2) s2 m2).1).2
        = [String.join (specFlushSegs p2
            (appendMsg (setLinePfx (appendMsg d s1 m1).1 p2) s2 m2).1.lines)] := by
  have hA := appendMsg_buffered d s1 m1 h1
  rw [hA]
  have hB := appendMsg_buffered
    (setLinePfx { d with lines := d.lines ++ [{ msg := m1, src := s1, pfx := genPfx d s1 }] } p2)
    s2 m2 (by simpa [setLinePfx] using h1)
  rw [hB]
  constructor
  · simp [setLinePfx, genPfx, h2]
  · rw [flush_of_ne _ (by simp)]
    rfl

/-- C5 witness: with prefix `"P: "` at first append and `"Q: "` at flush
time, the stored prefixes keep their append-time values and the
delimiters use `"Q: "`. -/
theorem pfx_append_time_delims_flush_time_witness :
    baseInstance.autoFlush = false
    ∧ baseInstance.lines = []
    ∧ (((appendMsg (setLinePfx (appendMsg baseInstance ⟨"a.go", "f", 1⟩ "m1").1 "Q: ")
          ⟨"b.go", "g", 2⟩ "m2").1.lines.map Line.pfx
          = [baseInstance.linePfx ++ sourceString ⟨"a.go", "f", 1⟩
               ++ contextsStr baseInstance.contexts ++ " ",
             "Q: " ++ sourceString ⟨"b.go", "g", 2⟩
               ++ contextsStr baseInstance.contexts ++ " "])
       ∧ (Flush (appendMsg (setLinePfx (appendMsg baseInstance ⟨"a.go", "f", 1⟩ "m1").1 "Q: ")
            ⟨"b.go", "g", 2⟩ "m2").1).2
           = [String.join (specFlushSegs "Q: "
               (appendMsg (setLinePfx (appendMsg baseInstance ⟨"a.go", "f", 1⟩ "m1").1 "Q: ")
                 ⟨"b.go", "g", 2⟩ "m2").1.lines)]) :=
  ⟨rfl, rfl,
    pfx_append_time_delims_flush_time baseInstance rfl rfl "Q: " ⟨"a.go", "f", 1⟩
      ⟨"b.go", "g", 2⟩ "m1" "m2"⟩

/-- C7: `Stack(num)` sends each selected line of the split stack text
through `appendMsg` — the ordinary prefixing/buffering path; with
auto-flush off it appends, in order, the whole split stack when
`num ≤ 0` and exactly the first `num` lines when `num > 0`, writing
nothing immediately. -/
theorem stack_emits_first_lines
    (d : Dabugger) (src : Source) (sl : List String) (num : Int)
    (h : d.autoFlush = false) :
    (Stack d src sl num).1.lines.map Line.msg
        = d.lines.map Line.msg ++ (if 0 < num then sl.take num.toNat else sl)
    ∧ (Stack d src sl num).2 = [] := by
  unfold Stack
  rw [emit_fold src _ d [] h]
  have hsel : stackLoop num 0 sl = if 0 < num then sl.take num.toNat else sl := by
    by_cases hn : 0 < num
    · rw [stackLoop_pos num hn sl 0 (by exact_mod_cast hn), if_pos hn]
      simp
    · rw [stackLoop_nonpos num (by omega) sl, if_neg hn]
  refine ⟨?_, rfl⟩
  show (d.lines ++ (stackLoop num 0 sl).map _).map Line.msg = _
  rw [hsel, List.map_append, map_msg_mk]

/-- C7 witness: dumping with `num = 2` buffers exactly the first two
stack lines, writing nothing. -/
theorem stack_emits_first_lines_witness :
    baseInstance.autoFlush = false
    ∧ (Stack baseInstance ⟨"s.go", "h", 5⟩ ["l0", "l1", "l2"] 2).2 = []
    ∧ (Stack baseInstance ⟨"s.go", "h", 5⟩ ["l0", "l1", "l2"] 2).1.lines.map Line.msg
        = ["l0", "l1"] :=
  ⟨rfl,
    (stack_emits_first_lines baseInstance ⟨"s.go", "h", 5⟩ ["l0", "l1", "l2"] 2 rfl).2,
    by decide⟩

/-- C8: the rendered per-line prefix is the instance prefix, then
`file:line`, then — only when the context stack is non-empty — a single
leading space and the parenthesized `key:value` list joined by `", "` in
stack (push) order, and finally a single trailing space; with an empty
stack the parenthesized part is absent. -/
theorem genPfx_rendering (d : Dabugger) (src : Source) :
    genPfx d src
      = d.linePfx ++ (src.file ++ ":" ++ toString src.line)
        ++ (if d.contexts = [] then ""
            else " (" ++ specJoinComma (d.contexts.map ctxKV) ++ ")")
        ++ " " := by
  unfold genPfx sourceString
  rw [contextsStr_eq]

end Dabug
